import Mathlib

/-!
Verification of the SOCKS5 client library (`client.ts`, `utils.ts`).

The TypeScript source is shallowly embedded: byte buffers (`Uint8Array`)
become `List Nat` with every element below 256 where the code guarantees it,
a `Deno.Reader` becomes the list of byte chunks it will deliver on successive
`read` calls, and fallible code returns `Except SocksErr`.
-/

namespace Socks5

deriving instance DecidableEq for Except

/-- Failures raised by the client code (`throw new Error(...)` in `client.ts`
and `Deno.errors.UnexpectedEof` in `utils.ts`), tagged by which message the
code constructs. -/
inductive SocksErr where
  | unexpectedEof
  | versionMismatch (v : Nat)
  | noAcceptableAuth
  | authVersionMismatch (v : Nat)
  | authFailed
  | proxyError (msg : String)
  | badAddrType (t : Nat)
  deriving DecidableEq

/-- JS `Uint8Array.from` element conversion (`ToUint8`) applied to a
non-negative integer: reduction modulo 256. -/
def toUint8 (n : Nat) : Nat := n % 256

/-- Model of `readN` from `utils.ts`.

A `Deno.Reader` is modelled as the list of byte chunks the underlying stream
delivers on successive `read` calls; a call with capacity `cap` returns at
most `cap` bytes from the front of the current chunk (keeping the remainder
buffered for the next call), and the stream signals end of stream (JS `null`)
once the chunks are exhausted.  `readNAux n chunks acc` is the loop
`while (nRead < n)` of `readN` with `acc` the bytes already read into `out`;
when a chunk covers the remaining capacity the loop's final iteration is
inlined (it fills `out` and exits), otherwise the whole chunk is consumed and
the loop continues — exactly the two ways one iteration of the JS loop can
go.  Success returns the filled buffer together with the not-yet-delivered
remainder of the stream. -/
def readNAux (n : Nat) : List (List Nat) → List Nat → Except SocksErr (List Nat × List (List Nat))
  | [], acc =>
    if acc.length < n then .error .unexpectedEof else .ok (acc, [])
  | c :: cs, acc =>
    if acc.length < n then
      let cap := n - acc.length
      if cap ≤ c.length then
        .ok (acc ++ c.take cap, if (c.drop cap).isEmpty then cs else c.drop cap :: cs)
      else
        readNAux n cs (acc ++ c)
    else .ok (acc, c :: cs)

/-- `readN(reader, n)` from `utils.ts`: read exactly `n` bytes from the
stream `chunks`, or fail with `UnexpectedEof` if the stream ends first. -/
def readNC (chunks : List (List Nat)) (n : Nat) : Except SocksErr (List Nat × List (List Nat)) :=
  readNAux n chunks []

theorem readNAux_nil (n : Nat) (acc : List Nat) :
    readNAux n [] acc =
      if acc.length < n then .error .unexpectedEof else .ok (acc, []) := rfl

theorem readNAux_cons (n : Nat) (c : List Nat) (cs : List (List Nat)) (acc : List Nat) :
    readNAux n (c :: cs) acc =
      if acc.length < n then
        if n - acc.length ≤ c.length then
          .ok (acc ++ c.take (n - acc.length),
            if (c.drop (n - acc.length)).isEmpty then cs
            else c.drop (n - acc.length) :: cs)
        else readNAux n cs (acc ++ c)
      else .ok (acc, c :: cs) := rfl

theorem readNAux_spec (n : Nat) (chunks : List (List Nat)) :
    ∀ acc : List Nat, acc.length ≤ n →
      (acc.length + chunks.flatten.length < n →
        readNAux n chunks acc = .error .unexpectedEof) ∧
      (n ≤ acc.length + chunks.flatten.length →
        ∃ rest, readNAux n chunks acc = .ok ((acc ++ chunks.flatten).take n, rest)) := by
  induction chunks with
  | nil =>
    intro acc hle
    refine ⟨fun hlt => ?_, fun hge => ?_⟩
    · rw [readNAux_nil, if_pos (by simpa using hlt)]
    · have heq : acc.length = n := le_antisymm hle (by simpa using hge)
      refine ⟨[], ?_⟩
      rw [readNAux_nil, if_neg (by omega), List.flatten_nil, List.append_nil,
        List.take_of_length_le hle]
  | cons c cs ih =>
    intro acc hle
    by_cases hlt : acc.length < n
    · by_cases hcap : n - acc.length ≤ c.length
      · refine ⟨fun habs => ?_, fun hge => ?_⟩
        · exfalso
          simp only [List.flatten_cons, List.length_append] at habs
          omega
        · refine ⟨if (c.drop (n - acc.length)).isEmpty then cs
            else c.drop (n - acc.length) :: cs, ?_⟩
          rw [readNAux_cons, if_pos hlt, if_pos hcap, List.flatten_cons,
            List.take_append_eq_append_take, List.take_of_length_le hle,
            List.take_append_of_le_length hcap]
      · have hle' : (acc ++ c).length ≤ n := by
          simp only [List.length_append]; omega
        have ih' := ih (acc ++ c) hle'
        have hred : readNAux n (c :: cs) acc = readNAux n cs (acc ++ c) := by
          rw [readNAux_cons, if_pos hlt, if_neg hcap]
        refine ⟨fun h1 => ?_, fun h2 => ?_⟩
        · rw [hred]
          refine ih'.1 ?_
          simp only [List.flatten_cons, List.length_append] at h1 ⊢
          omega
        · have h2' : n ≤ (acc ++ c).length + cs.flatten.length := by
            simp only [List.flatten_cons, List.length_append] at h2 ⊢
            omega
          rcases ih'.2 h2' with ⟨r, hr⟩
          refine ⟨r, ?_⟩
          rw [hred, hr]
          simp [List.flatten_cons, List.append_assoc]
    · refine ⟨fun habs => (hlt (by omega)).elim, fun hge => ?_⟩
      have heq : acc.length = n := le_antisymm hle (Nat.le_of_not_lt hlt)
      refine ⟨c :: cs, ?_⟩
      rw [readNAux_cons, if_neg hlt, List.take_append_eq_append_take,
        List.take_of_length_le hle, heq, Nat.sub_self, List.take_zero,
        List.append_nil]

/-- C6: `readN(reader, n)` retries partial reads until it has collected
exactly `n` bytes, failing with `UnexpectedEndOfStream` when the stream ends
first; a successful return is never shorter than `n` bytes. -/
theorem readN_reads_exactly (chunks : List (List Nat)) (n : Nat) :
    (chunks.flatten.length < n → readNC chunks n = .error .unexpectedEof) ∧
    (n ≤ chunks.flatten.length →
      ∃ rest, readNC chunks n = .ok (chunks.flatten.take n, rest)) ∧
    (∀ out rest, readNC chunks n = .ok (out, rest) → out.length = n) := by
  have h := readNAux_spec n chunks [] (Nat.zero_le n)
  simp only [List.length_nil, Nat.zero_add, List.nil_append] at h
  refine ⟨h.1, h.2, ?_⟩
  intro out rest hok
  rcases le_or_lt n chunks.flatten.length with hge | hlt
  · rcases h.2 hge with ⟨r, hr⟩
    rw [readNC] at hok
    rw [hok] at hr
    have h1 : (out, rest) = (chunks.flatten.take n, r) := by injection hr
    have h2 : out = chunks.flatten.take n := congrArg Prod.fst h1
    rw [h2, List.length_take]
    exact min_eq_left hge
  · have herr := h.1 hlt
    rw [readNC] at hok
    rw [herr] at hok
    cases hok

/-- Witness for C6 at concrete inputs: a stream ending early fails, and a
stream delivering `[1]` then `[2, 3]` yields exactly `[1, 2]` for `n = 2`. -/
theorem readN_reads_exactly_witness :
    readNC [[7]] 2 = .error .unexpectedEof ∧
    ∃ rest, readNC [[1], [2, 3]] 2 = .ok ([1, 2], rest) := by
  refine ⟨(readN_reads_exactly [[7]] 2).1 (by decide), ?_⟩
  exact (readN_reads_exactly [[1], [2, 3]] 2).2.1 (by decide)

/-- JS `String.prototype.split` with a single-character separator, acting on
the string's character list (`"".split(sep)` is `[""]`, a trailing separator
yields a trailing empty part, exactly as in JS). -/
def splitChar (sep : Char) : List Char → List (List Char)
  | [] => [[]]
  | c :: cs =>
    if c = sep then [] :: splitChar sep cs
    else
      match splitChar sep cs with
      | g :: gs => (c :: g) :: gs
      | [] => [[c]]

/-- Decimal value of a digit string. -/
def decimalValue (cs : List Char) : Nat :=
  cs.foldl (fun acc c => acc * 10 + (c.toNat - 48)) 0

/-- JS `Number(s)` composed with `Uint8Array.from`'s `ToUint8` conversion, as
applied to the parts of a dot-split hostname: the empty string is `0`
(`Number("") = 0`), a string of decimal digits takes its value reduced
modulo 256, and any other part the split can produce here is `NaN`, which
`ToUint8` maps to `0`. -/
def jsNumberToUint8 (cs : List Char) : Nat :=
  if cs.isEmpty then 0
  else if cs.all Char.isDigit then toUint8 (decimalValue cs)
  else 0

/-- One `\d{1,3}` step of the `v4Pattern` regex from `client.ts`: the
suffixes left after consuming one, two or three leading digits.  Used for an
existence test only, so the greedy/backtracking order of the JS engine is
irrelevant. -/
def digitRests (cs : List Char) : List (List Char) :=
  match cs with
  | c1 :: t1 =>
    if c1.isDigit then
      t1 :: (match t1 with
        | c2 :: t2 =>
          if c2.isDigit then
            t2 :: (match t2 with
              | c3 :: t3 => if c3.isDigit then [t3] else []
              | [] => [])
          else []
        | [] => [])
    else []
  | [] => []

/-- The test `v4Pattern.test(hostname)` from `client.ts`, for the regex
`^(?:\d{1,3}\.){3}\d{1,3}` — three groups of 1-3 digits each followed by a
literal dot, then 1-3 more digits.  The regex has no `$` anchor, so it is a
prefix match: the final `\d{1,3}` succeeds as soon as one digit follows. -/
def v4Test (s : String) : Bool :=
  let step : List (List Char) → List (List Char) := fun rs =>
    (rs.flatMap digitRests).filterMap fun cs =>
      match cs with
      | '.' :: r => some r
      | _ => none
  (step (step (step [s.data]))).any fun cs =>
    match cs with
    | c :: _ => c.isDigit
    | [] => false

/-- Hex-digit test of the `v6Pattern` character class `[A-F0-9]` with the
`i` flag. -/
def isHexDigitChar (c : Char) : Bool :=
  c.isDigit || ('a' ≤ c && c ≤ 'f') || ('A' ≤ c && c ≤ 'F')

/-- The test `v6Pattern.test(hostname)` from `client.ts`, for the anchored
regex `^(?:[A-F0-9]{1,4}:){7}[A-F0-9]{1,4}$` (case-insensitive): the string
splits on `:` into exactly eight groups of one to four hex digits. -/
def v6Test (s : String) : Bool :=
  let parts := splitChar ':' s.data
  parts.length == 8 &&
    parts.all fun p => !p.isEmpty && decide (p.length ≤ 4) && p.all isHexDigitChar

/-- Value of a single hex digit. -/
def hexDigitVal (c : Char) : Nat :=
  if c.isDigit then c.toNat - 48
  else if 'a' ≤ c && c ≤ 'f' then c.toNat - 87
  else if 'A' ≤ c && c ≤ 'F' then c.toNat - 55
  else 0

def parseHex16Aux : List Char → Nat → Nat
  | c :: cs, acc =>
    if isHexDigitChar c then parseHex16Aux cs (acc * 16 + hexDigitVal c) else acc
  | [], acc => acc

/-- JS `parseInt(x, 16)` on the groups of a colon-split hostname: read
leading hex digits and stop at the first other character.  (The `v6Pattern`
guard guarantees the groups met here are pure hex digits; `parseInt`'s
whitespace/sign/`0x` handling never comes into play.) -/
def parseHex16 (cs : List Char) : Nat := parseHex16Aux cs 0

/-- `TextEncoder().encode(s)`: the UTF-8 bytes of the string. -/
def utf8Bytes (s : String) : List Nat :=
  (s.data.map fun c => (String.utf8EncodeChar c).map UInt8.toNat).flatten

/-- The `AddrType` enum of `client.ts`. -/
def AddrType.IPv4 : Nat := 1

def AddrType.DomainName : Nat := 3

def AddrType.IPv6 : Nat := 4

/-- `serializeAddress(hostname, port)` from `client.ts`.  The output layout
is `[type][address bytes][port >> 8][port % 256]`; `Uint8Array.from` applies
`ToUint8` (reduction mod 256, `toUint8`) to every element, which is where an
overlong domain length or an oversized octet silently wraps. -/
def serializeAddress (hostname : String) (port : Nat) : List Nat :=
  let portBytes := [toUint8 (port / 256), toUint8 (port % 256)]
  if v4Test hostname then
    [AddrType.IPv4] ++ (splitChar '.' hostname.data).map jsNumberToUint8 ++ portBytes
  else if v6Test hostname then
    [AddrType.IPv6] ++
      ((splitChar ':' hostname.data).flatMap fun x =>
        let num := parseHex16 x
        [toUint8 (num / 256), toUint8 (num % 256)]) ++ portBytes
  else
    let bytes := utf8Bytes hostname
    [AddrType.DomainName, toUint8 bytes.length] ++ bytes ++ portBytes

/-- The IPv6 grouping loop of `deserializeAddress`: `(buff[i] << 8) +
buff[i+1]` for `i = 0, 2, ..., 14` over the 16 address bytes. -/
def pairUp : List Nat → List Nat
  | a :: b :: rest => (a * 256 + b) :: pairUp rest
  | _ => []

/-- Unicode replacement character U+FFFD, which `TextDecoder` (in its
default non-fatal mode) substitutes for malformed UTF-8. -/
def replChar : Char := Char.ofNat 0xFFFD

/-- Model of `new TextDecoder().decode`: UTF-8 decoding with U+FFFD
replacement for malformed sequences (first/continuation byte range checks
per the WHATWG decoder; exact maximal-subpart resynchronisation boundaries
are not load-bearing for any theorem below). -/
def utf8DecodeList : List Nat → List Char
  | [] => []
  | b :: bs =>
    if b < 0x80 then Char.ofNat b :: utf8DecodeList bs
    else if 0xC2 ≤ b ∧ b ≤ 0xDF then
      match bs with
      | b2 :: bs2 =>
        if 0x80 ≤ b2 ∧ b2 ≤ 0xBF then
          Char.ofNat ((b - 0xC0) * 64 + (b2 - 0x80)) :: utf8DecodeList bs2
        else replChar :: utf8DecodeList (b2 :: bs2)
      | [] => [replChar]
    else if 0xE0 ≤ b ∧ b ≤ 0xEF then
      match bs with
      | b2 :: bs2 =>
        let lo2 := if b = 0xE0 then 0xA0 else 0x80
        let hi2 := if b = 0xED then 0x9F else 0xBF
        if lo2 ≤ b2 ∧ b2 ≤ hi2 then
          match bs2 with
          | b3 :: bs3 =>
            if 0x80 ≤ b3 ∧ b3 ≤ 0xBF then
              Char.ofNat ((b - 0xE0) * 4096 + (b2 - 0x80) * 64 + (b3 - 0x80)) ::
                utf8DecodeList bs3
            else replChar :: utf8DecodeList (b3 :: bs3)
          | [] => [replChar]
        else replChar :: utf8DecodeList (b2 :: bs2)
      | [] => [replChar]
    else if 0xF0 ≤ b ∧ b ≤ 0xF4 then
      match bs with
      | b2 :: bs2 =>
        let lo2 := if b = 0xF0 then 0x90 else 0x80
        let hi2 := if b = 0xF4 then 0x8F else 0xBF
        if lo2 ≤ b2 ∧ b2 ≤ hi2 then
          match bs2 with
          | b3 :: bs3 =>
            if 0x80 ≤ b3 ∧ b3 ≤ 0xBF then
              match bs3 with
              | b4 :: bs4 =>
                if 0x80 ≤ b4 ∧ b4 ≤ 0xBF then
                  Char.ofNat ((b - 0xF0) * 262144 + (b2 - 0x80) * 4096 +
                    (b3 - 0x80) * 64 + (b4 - 0x80)) :: utf8DecodeList bs4
                else replChar :: utf8DecodeList (b4 :: bs4)
              | [] => [replChar]
            else replChar :: utf8DecodeList (b3 :: bs3)
          | [] => [replChar]
        else replChar :: utf8DecodeList (b2 :: bs2)
      | [] => [replChar]
    else replChar :: utf8DecodeList bs

/-- `new TextDecoder().decode(bytes)` as a string. -/
def utf8DecodeJS (bs : List Nat) : String := String.mk (utf8DecodeList bs)

/-- `deserializeAddress(r)` from `client.ts`, reading from the byte stream
`chunks` via `readN`: one type byte, then the address (IPv4 → dotted decimal
via `parts.map(String).join(".")`, IPv6 → eight 16-bit groups rendered by
`parts.map(String).join(":")` — decimal, since JS `String(number)` is
decimal — domain → one length byte and that many UTF-8 bytes), then two port
bytes, big-endian.  Returns the hostname, the port, `bytesRead`
(= address length + 3) and the rest of the stream. -/
def deserializeAddress (chunks : List (List Nat)) :
    Except SocksErr (String × Nat × Nat × List (List Nat)) := do
  let (tb, s1) ← readNC chunks 1
  let t := tb.getD 0 0
  let (value, length, s2) ←
    (if t = AddrType.IPv4 then do
      let (parts, s2) ← readNC s1 4
      Except.ok (String.intercalate "." (parts.map Nat.repr), 4, s2)
    else if t = AddrType.IPv6 then do
      let (buff, s2) ← readNC s1 16
      Except.ok (String.intercalate ":" ((pairUp buff).map Nat.repr), 16, s2)
    else if t = AddrType.DomainName then do
      let (lb, s2) ← readNC s1 1
      let len := lb.getD 0 0
      let (db, s3) ← readNC s2 len
      Except.ok (utf8DecodeJS db, len + 1, s3)
    else Except.error (.badAddrType t) :
      Except SocksErr (String × Nat × List (List Nat)))
  let (pb, s3) ← readNC s2 2
  let port := (pb.getD 0 0) * 256 + pb.getD 1 0
  Except.ok (value, port, length + 3, s3)

/-- C1: the address-codec round trip fails on the code.  Evaluated at the
well-formed IPv6 endpoint `("a:0:0:0:0:0:0:0", 80)`: `deserializeAddress`
renders each 16-bit group with JS `String(number)` — decimal — rather than
as hex, so decoding the encoding yields hostname `"10:0:0:0:0:0:0:0"`, not
the original. -/
theorem roundtrip_ipv6_decimal_bug :
    serializeAddress "a:0:0:0:0:0:0:0" 80 =
      [4, 0, 10, 0, 0, 0, 0, 0, 0, 0, 0, 0, 0, 0, 0, 0, 0, 0, 80] ∧
    deserializeAddress [serializeAddress "a:0:0:0:0:0:0:0" 80] =
      .ok ("10:0:0:0:0:0:0:0", 80, 19, []) ∧
    "10:0:0:0:0:0:0:0" ≠ "a:0:0:0:0:0:0:0" := by
  refine ⟨by decide, by decide, by decide⟩

set_option maxRecDepth 8000 in
/-- C2: there is no `DomainTooLong` check in `serializeAddress`.  Evaluated
at a domain name of 300 `a`s (UTF-8 length 300 > 255): the code emits a
message whose one-byte length field has silently wrapped to `300 % 256 = 44`
while all 300 domain bytes follow — `serializeAddress` is total and cannot
fail. -/
theorem domain_too_long_wraps :
    (utf8Bytes (String.mk (List.replicate 300 'a'))).length = 300 ∧
    serializeAddress (String.mk (List.replicate 300 'a')) 80 =
      [3, 44] ++ List.replicate 300 97 ++ [0, 80] := by
  refine ⟨by decide, by decide⟩

/-- C3: the `v4Pattern` regex has no `$` anchor, so `"1.2.3.4.5"` matches it
as a prefix, yet `hostname.split(".")` has five parts and the encoder emits
five address bytes instead of exactly four. -/
theorem v4_unanchored_five_bytes :
    v4Test "1.2.3.4.5" = true ∧
    serializeAddress "1.2.3.4.5" 80 = [1, 1, 2, 3, 4, 5, 0, 80] ∧
    (serializeAddress "1.2.3.4.5" 80).length = 8 := by
  refine ⟨by decide, by decide, by decide⟩

/-- `decodeError(status)` from `client.ts`: the `switch` mapping each
non-success `ReplyStatus` (1 `GeneralError` … 8 `UnsupportedAddress`) to its
human-readable message, with every other value falling through to the
generic default. -/
def decodeError (status : Nat) : String :=
  if status = 1 then "general SOCKS server failure"
  else if status = 2 then "connection not allowed by ruleset"
  else if status = 3 then "Network unreachable"
  else if status = 4 then "Host unreachable"
  else if status = 5 then "Connection refused"
  else if status = 6 then "TTL expired"
  else if status = 7 then "Command not supported"
  else if status = 8 then "Address type not supported"
  else "unknown SOCKS error"

/-- Modelled from the spec: the §4.3 status table `0 Success ·
1 GeneralFailure · 2 RulesetDenied · 3 NetworkUnreachable ·
4 HostUnreachable · 5 ConnectionRefused · 6 TtlExpired ·
7 CommandNotSupported · 8 AddressTypeNotSupported · other
UnknownProxyError`, with each named entry's human-readable message as the
repository's own test table fixes it (`client_test.ts`, the
"request failed" cases).  Status 0 is `Success`: a reply with that status
is not an error at all, so the table assigns it no failure message. -/
def specStatusMessage : Nat → String
  | 1 => "general SOCKS server failure"
  | 2 => "connection not allowed by ruleset"
  | 3 => "Network unreachable"
  | 4 => "Host unreachable"
  | 5 => "Connection refused"
  | 6 => "TTL expired"
  | 7 => "Command not supported"
  | 8 => "Address type not supported"
  | _ => "unknown SOCKS error"

/-- The reply check of `#connectAndRequest` (`client.ts` lines 220-232):
after reading `[replyVersion, status, _]`, a version other than 5 or a
non-success status closes the connection (close errors swallowed) and
throws; the first component records whether the connection was closed. -/
def checkReply (version status : Nat) : Bool × Except SocksErr Unit :=
  if version ≠ 5 then (true, .error (.versionMismatch version))
  else if status ≠ 0 then (true, .error (.proxyError (decodeError status)))
  else (false, .ok ())

/-- C8: for the eight failure statuses 1-8 the `ProxyError` message is
exactly the §4.3 table entry (the eight messages being pairwise distinct),
every status byte above 8 maps to the single generic unknown-error message,
and status 0 is `Success` — a version-5 reply carrying it raises no
`ProxyError` at all. -/
theorem proxy_error_messages (s t : Nat) :
    (1 ≤ s → s ≤ 8 → decodeError s = specStatusMessage s) ∧
    (1 ≤ s → s ≤ 8 → 1 ≤ t → t ≤ 8 → s ≠ t → decodeError s ≠ decodeError t) ∧
    (8 < s → decodeError s = "unknown SOCKS error") ∧
    checkReply 5 0 = (false, .ok ()) := by
  refine ⟨fun h1 h8 => ?_, fun hs1 hs8 ht1 ht8 hne => ?_, fun hgt => ?_, by decide⟩
  · interval_cases s <;> rfl
  · interval_cases s <;> interval_cases t <;> simp_all <;> decide
  · simp only [decodeError]
    split_ifs <;> first | rfl | omega

/-- Witness for C8: status 2 maps to its table message, differs from the
status 5 message, status 99 maps to the generic message, and a version-5
success reply raises no error. -/
theorem proxy_error_messages_witness :
    decodeError 2 = specStatusMessage 2 ∧
    decodeError 2 ≠ decodeError 5 ∧
    decodeError 99 = "unknown SOCKS error" ∧
    checkReply 5 0 = (false, .ok ()) := by
  refine ⟨(proxy_error_messages 2 5).1 (by decide) (by decide), ?_, ?_, ?_⟩
  · exact (proxy_error_messages 2 5).2.1 (by decide) (by decide) (by decide)
      (by decide) (by decide)
  · exact (proxy_error_messages 99 0).2.2.1 (by decide)
  · exact (proxy_error_messages 0 0).2.2.2

/-- The method-negotiation reply check of `#connectAndRequest` (`client.ts`
lines 160-175): read exactly two bytes `[negotiationVersion, method]` from
the reply stream; a version other than `SOCKS_VERSION = 5` or a method of
`AuthMethod.NoneAcceptable = 0xFF` closes the connection inside
`try { conn.close() } catch { /* ignore */ }` and throws the matching error
— the `closeFails` flag says whether that close itself throws, and the
swallowed outcome never influences the result.  The first component records
whether the connection was closed; on success the chosen method and the
rest of the stream are returned. -/
def negotiateMethodReply (chunks : List (List Nat)) (closeFails : Bool) :
    Bool × Except SocksErr (Nat × List (List Nat)) :=
  match readNC chunks 2 with
  | .error e => (false, .error e)
  | .ok (bytes, rest) =>
    let v := bytes.getD 0 0
    let m := bytes.getD 1 0
    if v ≠ 5 then (true, .error (.versionMismatch v))
    else if m = 255 then (true, .error .noAcceptableAuth)
    else (false, .ok (m, rest))

/-- C7: whenever the two-byte method-negotiation reply is read, a server
version other than 5 fails with the version-mismatch error carrying that
version, and (with version 5) a chosen method of `0xFF` fails with the
no-acceptable-method error; in both cases the connection is closed first,
the failure is propagated unchanged, and the result is the same whether or
not the close itself throws (close errors are swallowed). -/
theorem negotiation_failures_close (chunks : List (List Nat)) (closeFails : Bool)
    (v m : Nat) (rest : List (List Nat))
    (hread : readNC chunks 2 = .ok ([v, m], rest)) :
    (v ≠ 5 → negotiateMethodReply chunks closeFails =
      (true, .error (.versionMismatch v))) ∧
    (v = 5 → m = 255 → negotiateMethodReply chunks closeFails =
      (true, .error .noAcceptableAuth)) := by
  constructor
  · intro hv
    simp [negotiateMethodReply, hread, hv]
  · intro hv hm
    simp [negotiateMethodReply, hread, hv, hm]

/-- Witness for C7: a server replying `[4, 0]` fails with a version
mismatch for version 4, and one replying `[5, 255]` fails with the
no-acceptable-method error, closing the connection in both cases, whether
or not the close throws. -/
theorem negotiation_failures_close_witness :
    negotiateMethodReply [[4, 0]] true = (true, .error (.versionMismatch 4)) ∧
    negotiateMethodReply [[5, 255]] false = (true, .error .noAcceptableAuth) := by
  constructor
  · exact (negotiation_failures_close [[4, 0]] true 4 0 [] (by decide)).1 (by decide)
  · exact (negotiation_failures_close [[5, 255]] false 5 255 [] (by decide)).2
      rfl rfl

/-- The two resources a relay session closes. -/
inductive CloseAction where
  | closeTcp
  | closeUdp
  deriving DecidableEq

/-- The `close(throwErr)` helper of `listenDatagram` (`client.ts` lines
292-307).  `hasTcp` models `proxyInfo !== null`; `tcpErr` and `udpErr` are
the errors the two `close()` calls throw (`none` = closes cleanly).  The
code runs both closes in sequence, each in its own `try`/`catch` that
stores the thrown error in the shared variable `err` — the second catch
overwrites the first — and finally re-throws `err` iff `throwErr` is set.
The first component is the sequence of close attempts made, the second the
error thrown, if any. -/
def relayClose (hasTcp : Bool) (tcpErr udpErr : Option String) (throwErr : Bool) :
    List CloseAction × Option String :=
  let fromTcp : Option String := if hasTcp then tcpErr else none
  let acts := (if hasTcp then [CloseAction.closeTcp] else []) ++ [CloseAction.closeUdp]
  let err := match udpErr with
    | some e => some e
    | none => fromTcp
  (acts, if throwErr then err else none)

/-- C4 counterexample: when both closes throw, `close(true)` re-raises the
error from the second attempt (the datagram socket's), not the first
encountered error (the control connection's) — the shared `err` variable is
overwritten by the second `catch`. -/
theorem relay_close_last_error :
    (relayClose true (some "tcp close failed") (some "udp close failed") true).2 =
      some "udp close failed" ∧
    (relayClose true (some "tcp close failed") (some "udp close failed") true).2 ≠
      some "tcp close failed" := by
  refine ⟨by decide, by decide⟩

/-- C4 as amended: `close(true)` always attempts both closes — the control
connection first, then the datagram socket, even when the first throws —
and when at least one attempt throws it re-raises the error of the last
failing attempt (the datagram socket's error when that close throws,
otherwise the control connection's) after both attempts; in the internal
cleanup path (`throwErr = false`) every close error is swallowed. -/
theorem relay_close_attempts_both (tcpErr udpErr : Option String) :
    (relayClose true tcpErr udpErr true).1 =
      [CloseAction.closeTcp, CloseAction.closeUdp] ∧
    (∀ e, udpErr = some e → (relayClose true tcpErr udpErr true).2 = some e) ∧
    (udpErr = none → (relayClose true tcpErr udpErr true).2 = tcpErr) ∧
    (relayClose true tcpErr udpErr false).2 = none := by
  refine ⟨rfl, fun e he => ?_, fun he => ?_, rfl⟩
  · simp [relayClose, he]
  · simp [relayClose, he]

/-- Witness for C4's amended claim: with the control-connection close
throwing and the datagram-socket close succeeding, both closes are
attempted and the control connection's error is re-raised. -/
theorem relay_close_attempts_both_witness :
    (relayClose true (some "tcp close failed") none true).1 =
      [CloseAction.closeTcp, CloseAction.closeUdp] ∧
    (relayClose true (some "tcp close failed") none true).2 =
      some "tcp close failed" := by
  refine ⟨(relay_close_attempts_both (some "tcp close failed") none).1, ?_⟩
  exact (relay_close_attempts_both (some "tcp close failed") none).2.2.1 rfl

/-- Internal receive buffer of `UdpRelay.receive` (`client.ts` line 369):
`new Uint8Array(p ? p.length + 1024 : 2048)` — the caller's buffer `p`
contributes only its length. -/
def receiveBuffSize (p : Option (List Nat)) : Nat :=
  match p with
  | some l => l.length + 1024
  | none => 2048

/-- The receive loop of `UdpRelay.receive` (`client.ts` lines 364-384) over
the queue `ds` of datagrams the local socket will deliver.  Each datagram is
received into the fresh internal buffer (truncation to `bufSize`, never a
write into the caller's buffer); if any of the first three header bytes —
two reserved bytes and the fragment byte, with out-of-range reads being JS
`undefined`, i.e. falsy — is non-zero, the datagram is dropped and the code
retries (`return this.receive(p)`).  Otherwise the source endpoint is
decoded from offset 3 by `deserializeAddress` via `uint8ArrayToReader`
(a one-chunk stream) and the call returns the payload after the
`3 + bytesRead` header together with the decoded hostname and port (the
returned address also carries `transport: "udp"`, a constant).  `none`
means no further datagram arrives and the call stays suspended. -/
def receiveAux (bufSize : Nat) : List (List Nat) → Option (Except SocksErr (List Nat × String × Nat))
  | [] => none
  | d :: ds =>
    let res := d.take bufSize
    if res.getD 0 0 ≠ 0 ∨ res.getD 1 0 ≠ 0 ∨ res.getD 2 0 ≠ 0 then
      receiveAux bufSize ds
    else
      some (match deserializeAddress [res.drop 3] with
        | .error e => .error e
        | .ok (host, port, bytesRead, _) =>
          .ok (res.drop (3 + bytesRead), host, port))

/-- `UdpRelay.receive(p)` on an incoming datagram queue. -/
def receiveModel (p : Option (List Nat)) (ds : List (List Nat)) :
    Option (Except SocksErr (List Nat × String × Nat)) :=
  receiveAux (receiveBuffSize p) ds

theorem receiveAux_cons (bufSize : Nat) (d : List Nat) (ds : List (List Nat)) :
    receiveAux bufSize (d :: ds) =
      if (d.take bufSize).getD 0 0 ≠ 0 ∨ (d.take bufSize).getD 1 0 ≠ 0 ∨
          (d.take bufSize).getD 2 0 ≠ 0 then
        receiveAux bufSize ds
      else
        some (match deserializeAddress [(d.take bufSize).drop 3] with
          | .error e => .error e
          | .ok (host, port, bytesRead, _) =>
            .ok ((d.take bufSize).drop (3 + bytesRead), host, port)) := rfl

theorem receiveBuffSize_ge (p : Option (List Nat)) : 3 ≤ receiveBuffSize p := by
  cases p <;> simp [receiveBuffSize]

theorem getD_take (l : List Nat) (n i : Nat) (h : i < n) :
    (l.take n).getD i 0 = l.getD i 0 := by
  simp [List.getD_eq_getElem?_getD, List.getElem?_take, h]

theorem receiveAux_skip (bufSize : Nat) (bad ds : List (List Nat))
    (hbad : ∀ d ∈ bad, (d.take bufSize).getD 0 0 ≠ 0 ∨
      (d.take bufSize).getD 1 0 ≠ 0 ∨ (d.take bufSize).getD 2 0 ≠ 0) :
    receiveAux bufSize (bad ++ ds) = receiveAux bufSize ds := by
  induction bad with
  | nil => rfl
  | cons d bad ih =>
    rw [List.cons_append, receiveAux_cons,
      if_pos (hbad d (List.mem_cons_self d bad))]
    exact ih fun x hx => hbad x (List.mem_cons_of_mem d hx)

/-- C5: every incoming datagram whose first three header bytes are not all
zero is silently discarded — never returned — and the first datagram with an
all-zero three-byte header is returned as the payload slice starting at
offset `3 + bytesRead` together with the source endpoint decoded from
offset 3. -/
theorem receive_discards_flagged (p : Option (List Nat)) (bad : List (List Nat))
    (good : List Nat) (rest : List (List Nat)) (host : String)
    (port consumed : Nat) (s : List (List Nat))
    (hbad : ∀ d ∈ bad, d.getD 0 0 ≠ 0 ∨ d.getD 1 0 ≠ 0 ∨ d.getD 2 0 ≠ 0)
    (hg0 : good.getD 0 0 = 0) (hg1 : good.getD 1 0 = 0) (hg2 : good.getD 2 0 = 0)
    (hdec : deserializeAddress [(good.take (receiveBuffSize p)).drop 3] =
      .ok (host, port, consumed, s)) :
    receiveModel p (bad ++ good :: rest) =
      some (.ok ((good.take (receiveBuffSize p)).drop (3 + consumed), host, port)) := by
  have hbs := receiveBuffSize_ge p
  have hbad2 : ∀ d ∈ bad, (d.take (receiveBuffSize p)).getD 0 0 ≠ 0 ∨
      (d.take (receiveBuffSize p)).getD 1 0 ≠ 0 ∨
      (d.take (receiveBuffSize p)).getD 2 0 ≠ 0 := by
    intro d hd
    rcases hbad d hd with h | h | h
    · exact Or.inl (by rw [getD_take d _ 0 (by omega)]; exact h)
    · exact Or.inr (Or.inl (by rw [getD_take d _ 1 (by omega)]; exact h))
    · exact Or.inr (Or.inr (by rw [getD_take d _ 2 (by omega)]; exact h))
  have e0 := (getD_take good (receiveBuffSize p) 0 (by omega)).trans hg0
  have e1 := (getD_take good (receiveBuffSize p) 1 (by omega)).trans hg1
  have e2 := (getD_take good (receiveBuffSize p) 2 (by omega)).trans hg2
  unfold receiveModel
  rw [receiveAux_skip _ _ _ hbad2, receiveAux_cons,
    if_neg (by rw [e0, e1, e2]; simp), hdec]

/-- Witness for C5: a datagram flagged in its reserved bytes is dropped and
the following clean datagram's IPv4 payload and source endpoint are
returned. -/
theorem receive_discards_flagged_witness :
    receiveModel none [[1, 0, 0, 5], [0, 0, 0, 1, 127, 0, 0, 1, 0, 80, 9, 9]] =
      some (.ok ([9, 9], "127.0.0.1", 80)) := by
  have h := receive_discards_flagged none [[1, 0, 0, 5]]
    [0, 0, 0, 1, 127, 0, 0, 1, 0, 80, 9, 9] [] "127.0.0.1" 80 7 [[9, 9]]
    (by decide) (by decide) (by decide) (by decide) (by decide)
  exact h

/-- C10: `receive(p)` never writes the caller-supplied buffer `p` — the code
reads only `p.length`, so the outcome is unchanged when `p` is replaced by
any buffer of the same length, and the returned payload is a view of the
freshly allocated internal buffer, whose size is `p.length + 1024`
(or 2048 when `p` is omitted). -/
theorem receive_ignores_caller_buffer (p q : List Nat) (h : p.length = q.length)
    (ds : List (List Nat)) :
    receiveModel (some p) ds = receiveModel (some q) ds ∧
    receiveBuffSize (some p) = p.length + 1024 ∧
    receiveBuffSize none = 2048 := by
  refine ⟨?_, rfl, rfl⟩
  simp only [receiveModel, receiveBuffSize, h]

/-- Witness for C10: two different two-byte caller buffers give the same
result, and the internal buffer sizes are as stated. -/
theorem receive_ignores_caller_buffer_witness :
    receiveModel (some [5, 5]) [[0, 0, 0, 1, 9, 8, 7, 6, 0, 25, 1]] =
      receiveModel (some [7, 8]) [[0, 0, 0, 1, 9, 8, 7, 6, 0, 25, 1]] ∧
    receiveBuffSize (some [5, 5]) = 2 + 1024 ∧
    receiveBuffSize none = 2048 :=
  receive_ignores_caller_buffer [5, 5] [7, 8] rfl _

/-- Observable actions of a relay instance, for the lifecycle model of
`listenDatagram` (`client.ts` lines 286-390). -/
inductive RelayAction where
  | bindSocket
  | startNegotiation
  | awaitReady
  | sendDatagram
  | receiveDatagram
  deriving DecidableEq

/-- The datagram-facing methods of the relay handle. -/
inductive RelayCall where
  | send
  | receive
  deriving DecidableEq

/-- Actions performed by `listenDatagram` itself: it binds the local
datagram socket (`Deno.listenDatagram(opts)`, line 289) and starts the
single `isReady` task (lines 309-340) — the immediately-invoked async block
that runs the negotiation-plus-udp-associate exchange, and the only place
that exchange is ever initiated for the instance. -/
def listenActions : List RelayAction :=
  [RelayAction.bindSocket, RelayAction.startNegotiation]

/-- Actions performed by one `send`/`receive` call (lines 349-384), given
whether `proxyInfo` was already set when the call ran: a call before
readiness merely awaits the already-running `isReady` task
(`if (!proxyInfo) await isReady`) — neither method ever starts a
negotiation of its own. -/
def callActions : Bool × RelayCall → List RelayAction
  | (ready, c) =>
    (if ready then [] else [RelayAction.awaitReady]) ++
      [match c with
        | RelayCall.send => RelayAction.sendDatagram
        | RelayCall.receive => RelayAction.receiveDatagram]

/-- The full action trace of one relay instance: construction followed by
any sequence of `send`/`receive` calls in any readiness states. -/
def relayTrace (calls : List (Bool × RelayCall)) : List RelayAction :=
  listenActions ++ calls.flatMap callActions

/-- C9: single-flight negotiation — every trace of a relay instance
contains exactly one `startNegotiation`, no matter how many `send` or
`receive` calls are issued before or after readiness: callers before
readiness only await the one in-flight attempt. -/
theorem single_flight_of_relay (calls : List (Bool × RelayCall)) :
    (relayTrace calls).count RelayAction.startNegotiation = 1 := by
  unfold relayTrace
  rw [List.count_append]
  have h2 : (calls.flatMap callActions).count RelayAction.startNegotiation = 0 := by
    induction calls with
    | nil => rfl
    | cons c cs ih =>
      rw [List.flatMap_cons, List.count_append, ih]
      rcases c with ⟨r, rc⟩
      cases r <;> cases rc <;> rfl
  rw [h2]
  rfl

end Socks5
